import Mathlib

/-!
Verification of the message-schema coercion engine
(`app/core/openai/message_coercion.py`).

JSON values are modelled by the inductive type `Json`; Python dicts become
association lists (`JObj`), where lookup (`jget`) returns `Json.null` for a
missing key, matching the semantics of `dict.get`, while `hasKey` models the
`in` operator, which does distinguish a missing key from an explicit null.
Numbers are modelled as integers; no claim involves floats.
-/

inductive Json where
  | null : Json
  | bool : Bool → Json
  | num : Int → Json
  | str : String → Json
  | arr : List Json → Json
  | obj : List (String × Json) → Json

abbrev JObj := List (String × Json)

/-- Python `dict.get(key)`: first binding wins, absent key gives `null`
(indistinguishable from an explicit null, exactly as in the source). -/
def jget : JObj → String → Json
  | [], _ => Json.null
  | (k, v) :: rest, key => if k = key then v else jget rest key

/-- Python `key in dict`: key presence, distinguishing explicit null. -/
def hasKey : JObj → String → Bool
  | [], _ => false
  | (k, _) :: rest, key => if k = key then true else hasKey rest key

/-- Python `d[key] = v` on a (copied) dict: replaces the value in place when
the key exists, appends the binding otherwise. -/
def setKey : JObj → String → Json → JObj
  | [], key, v => [(key, v)]
  | (k, w) :: rest, key, v =>
      if k = key then (key, v) :: rest else (k, w) :: setKey rest key v

/-- Python truthiness of a JSON value. -/
def truthyJ : Json → Bool
  | Json.null => false
  | Json.bool b => b
  | Json.num n => n != 0
  | Json.str s => s != ""
  | Json.arr xs => !xs.isEmpty
  | Json.obj fs => !fs.isEmpty

/-- The pattern `v if isinstance(v, str) and v else None` from the source. -/
def nonEmptyStrOf : Json → Option String
  | Json.str s => if s = "" then none else some s
  | _ => none

/-- Whitespace in the sense of Python `str.strip`. -/
def pyIsSpace (c : Char) : Bool :=
  c = ' ' || c = '\t' || c = '\n' || c = '\r' || c = '\x0b' || c = '\x0c'

/-- Python `bool(s.strip())`: the string has a non-whitespace character. -/
def pyHasNonWS (s : String) : Bool :=
  s.any (fun c => !pyIsSpace c)

/-- Python equality of a JSON value against a string literal. -/
def jsonIsStr (v : Json) (s : String) : Bool :=
  match v with
  | Json.str t => t == s
  | _ => false

/-- Python `part_type in (None, "text")` from the text-only validator. -/
def isNoneOrTextTag (v : Json) : Bool :=
  match v with
  | Json.null => true
  | Json.str s => s == "text"
  | _ => false

/-- Hexadecimal digit (lowercase), as produced by `json.dumps` escapes. -/
def hexDigit (n : Nat) : Char :=
  if n < 10 then Char.ofNat (48 + n) else Char.ofNat (87 + n)

/-- One-character escape of `json.dumps(..., ensure_ascii=False)`. -/
def escapeJsonChar (c : Char) : String :=
  if c = '"' then "\\\""
  else if c = '\\' then "\\\\"
  else if c = '\n' then "\\n"
  else if c = '\t' then "\\t"
  else if c = '\r' then "\\r"
  else if c = '\x08' then "\\b"
  else if c = '\x0c' then "\\f"
  else if c.toNat < 32 then
    "\\u00" ++ String.singleton (hexDigit (c.toNat / 16)) ++ String.singleton (hexDigit (c.toNat % 16))
  else String.singleton c

/-- String-body escaping of `json.dumps(..., ensure_ascii=False)`. -/
def escapeJsonString (s : String) : String :=
  String.join (s.toList.map escapeJsonChar)

mutual

/-- Compact JSON encoding
`json.dumps(v, ensure_ascii=False, separators=(",", ":"))`. -/
def jsonDumps : Json → String
  | Json.null => "null"
  | Json.bool true => "true"
  | Json.bool false => "false"
  | Json.num n => toString n
  | Json.str s => "\"" ++ escapeJsonString s ++ "\""
  | Json.arr xs => "[" ++ jsonDumpsElems xs ++ "]"
  | Json.obj fs => "\x7b" ++ jsonDumpsMembers fs ++ "\x7d"

/-- Comma-joined array elements of the compact JSON encoding. -/
def jsonDumpsElems : List Json → String
  | [] => ""
  | [x] => jsonDumps x
  | x :: y :: xs => jsonDumps x ++ "," ++ jsonDumpsElems (y :: xs)

/-- Comma-joined object members of the compact JSON encoding. -/
def jsonDumpsMembers : List (String × Json) → String
  | [] => ""
  | [kv] => "\"" ++ escapeJsonString kv.1 ++ "\":" ++ jsonDumps kv.2
  | kv :: kv2 :: fs =>
      "\"" ++ escapeJsonString kv.1 ++ "\":" ++ jsonDumps kv.2 ++ "," ++
        jsonDumpsMembers (kv2 :: fs)

end

/-- The single error kind raised by the coercion engine
(`ClientPayloadError(message, param="messages")`). -/
structure ClientPayloadError where
  message : String
  param : String

/-- All errors of this module carry `param="messages"`. -/
def payloadError (msg : String) : ClientPayloadError :=
  ⟨msg, "messages"⟩

/-- Membership in `_SUPPORTED_MESSAGE_ROLES`. -/
def supportedRole (role : String) : Bool :=
  role == "system" || role == "developer" || role == "user" ||
    role == "assistant" || role == "tool"

/-- Source `_merge_instructions`. -/
def _merge_instructions (existing : String) (extra_parts : List String) : String :=
  if extra_parts.isEmpty then existing
  else
    let extra := String.intercalate "\n" (extra_parts.filter (fun p => p != ""))
    if extra == "" then existing
    else if existing != "" then existing ++ "\n" ++ extra
    else extra

/-- Source `_content_to_text`. -/
def _content_to_text : Json → Option String
  | Json.null => none
  | Json.str s => some s
  | Json.arr parts =>
      let texts := parts.filterMap (fun part =>
        match part with
        | Json.str s => some s
        | Json.obj fs =>
            match jget fs "text" with
            | Json.str t => some t
            | _ => none
        | _ => none)
      some (String.intercalate "\n" (texts.filter (fun p => p != "")))
  | Json.obj fs =>
      match jget fs "text" with
      | Json.str t => some t
      | _ => none
  | _ => none

/-- The error raised by `_ensure_text_only_content`. -/
def textOnlyError (role : String) : ClientPayloadError :=
  payloadError (role ++ " messages must be text-only.")

/-- Loop body of `_ensure_text_only_content` over an array content. -/
def _ensure_text_only_list (parts : List Json) (role : String) :
    Except ClientPayloadError Unit :=
  match parts with
  | [] => Except.ok ()
  | part :: rest =>
      match part with
      | Json.str _ => _ensure_text_only_list rest role
      | Json.obj fs =>
          if !isNoneOrTextTag (jget fs "type") then Except.error (textOnlyError role)
          else
            match jget fs "text" with
            | Json.str _ => _ensure_text_only_list rest role
            | _ => Except.error (textOnlyError role)
      | _ => Except.error (textOnlyError role)

/-- Source `_ensure_text_only_content`. -/
def _ensure_text_only_content (content : Json) (role : String) :
    Except ClientPayloadError Unit :=
  match content with
  | Json.null => Except.ok ()
  | Json.str _ => Except.ok ()
  | Json.arr parts => _ensure_text_only_list parts role
  | Json.obj fs =>
      if !isNoneOrTextTag (jget fs "type") then Except.error (textOnlyError role)
      else
        match jget fs "text" with
        | Json.str _ => Except.ok ()
        | _ => Except.error (textOnlyError role)
  | _ => Except.error (textOnlyError role)

/-- The dispatch tag of a content part:
`part.get("type") or ("text" if "text" in part else None)`. -/
def partTypeOf (part : JObj) : Json :=
  let t := jget part "type"
  if truthyJ t then t
  else if hasKey part "text" then Json.str "text"
  else Json.null

/-- Source `_audio_mime_type`. -/
def _audio_mime_type (fmt : String) : String :=
  if fmt == "wav" then "audio/wav"
  else if fmt == "mp3" then "audio/mpeg"
  else "audio/" ++ fmt

/-- Source `_audio_input_to_data_url`. -/
def _audio_input_to_data_url (v : Json) : Option String :=
  match v with
  | Json.obj fs =>
      match jget fs "data", jget fs "format" with
      | Json.str data, Json.str fmt =>
          some ("data:" ++ _audio_mime_type fmt ++ ";base64," ++ data)
      | _, _ => none
  | _ => none

/-- Inline file payload: `file_data`, falling back to legacy `data`
(an `isinstance(..., str)` check only, the empty string passes). -/
def fileDataOf (fs : JObj) : Option String :=
  match jget fs "file_data" with
  | Json.str s => some s
  | _ =>
      match jget fs "data" with
      | Json.str s => some s
      | _ => none

/-- Mime type resolution of `_file_part_to_input_file`:
`mime_type`, then `content_type`, then `application/octet-stream`. -/
def fileMime (fs : JObj) : String :=
  match nonEmptyStrOf (jget fs "mime_type") with
  | some m => m
  | none =>
      match nonEmptyStrOf (jget fs "content_type") with
      | some m => m
      | none => "application/octet-stream"

/-- Source `_file_part_to_input_file`. -/
def _file_part_to_input_file (file_info : Json) : JObj :=
  match file_info with
  | Json.obj fs =>
      match nonEmptyStrOf (jget fs "file_id") with
      | some fid => [("type", Json.str "input_file"), ("file_id", Json.str fid)]
      | none =>
          match nonEmptyStrOf (jget fs "file_url") with
          | some furl => [("type", Json.str "input_file"), ("file_url", Json.str furl)]
          | none =>
              match fileDataOf fs with
              | some fdata =>
                  [("type", Json.str "input_file"),
                   ("file_url", Json.str ("data:" ++ fileMime fs ++ ";base64," ++ fdata))]
              | none => [("type", Json.str "input_file")]
  | _ => [("type", Json.str "input_file")]

/-- Source `_normalize_content_part`. -/
def _normalize_content_part (part : JObj) : JObj :=
  let pt := partTypeOf part
  if jsonIsStr pt "text" || jsonIsStr pt "input_text" then
    match jget part "text" with
    | Json.str t => [("type", Json.str "input_text"), ("text", Json.str t)]
    | _ => part
  else if jsonIsStr pt "image_url" then
    match jget part "image_url" with
    | Json.obj iu =>
        (match jget iu "url" with
         | Json.str url =>
             (match jget iu "detail" with
              | Json.str d =>
                  [("type", Json.str "input_image"), ("image_url", Json.str url),
                   ("detail", Json.str d)]
              | _ => [("type", Json.str "input_image"), ("image_url", Json.str url)])
         | _ => part)
    | Json.str url => [("type", Json.str "input_image"), ("image_url", Json.str url)]
    | _ => part
  else if jsonIsStr pt "input_image" then part
  else if jsonIsStr pt "input_audio" then
    match _audio_input_to_data_url (jget part "input_audio") with
    | some u => [("type", Json.str "input_file"), ("file_url", Json.str u)]
    | none => part
  else if jsonIsStr pt "file" then _file_part_to_input_file (jget part "file")
  else part

/-- One element of the loop of `_normalize_content_parts`: bare strings become
text parts, dict parts go through `_normalize_content_part`, anything else is
passed through unchanged. -/
def normContentElem (part : Json) : Json :=
  match part with
  | Json.str s => Json.obj [("type", Json.str "input_text"), ("text", Json.str s)]
  | Json.obj fs => Json.obj (_normalize_content_part fs)
  | other => other

/-- Source `_normalize_content_parts`. A single (non-array) part collapses
back to a single element, mirroring `normalized_parts[0]`. -/
def _normalize_content_parts (content : Json) : Json :=
  match content with
  | Json.null => Json.null
  | Json.str s => Json.arr [Json.obj [("type", Json.str "input_text"), ("text", Json.str s)]]
  | Json.arr xs => Json.arr (xs.map normContentElem)
  | other => normContentElem other

/-- Source `_normalize_message_content`. -/
def _normalize_message_content (message : JObj) : JObj :=
  match jget message "content" with
  | Json.null => message
  | content => setKey message "content" (_normalize_content_parts content)

/-- Loop body of `_has_non_empty_content` over an array content. -/
def _has_non_empty_list (parts : List Json) : Bool :=
  match parts with
  | [] => false
  | part :: rest =>
      match part with
      | Json.str s => pyHasNonWS s || _has_non_empty_list rest
      | Json.obj fs =>
          (match jget fs "text" with
           | Json.str t => pyHasNonWS t
           | Json.null => truthyJ (Json.obj fs)
           | _ => false) || _has_non_empty_list rest
      | _ => true

/-- Source `_has_non_empty_content`. -/
def _has_non_empty_content (content : Json) : Bool :=
  match content with
  | Json.null => false
  | Json.str s => pyHasNonWS s
  | Json.arr parts => _has_non_empty_list parts
  | Json.obj fs =>
      match jget fs "text" with
      | Json.str t => pyHasNonWS t
      | _ => truthyJ (Json.obj fs)
  | _ => false

/-- Source `_normalize_tool_output_value`. -/
def _normalize_tool_output_value : Json → String
  | Json.null => ""
  | Json.str s => s
  | Json.arr parts =>
      let texts := parts.filterMap (fun part =>
        match part with
        | Json.str s => some s
        | Json.obj fs =>
            match jget fs "text" with
            | Json.str t => some t
            | _ => none
        | _ => none)
      if !texts.isEmpty then String.intercalate "\n" (texts.filter (fun p => p != ""))
      else jsonDumps (Json.arr parts)
  | Json.obj fs =>
      match jget fs "text" with
      | Json.str t => t
      | _ => jsonDumps (Json.obj fs)
  | Json.bool b => if b then "True" else "False"
  | Json.num n => toString n

/-- The error raised when a tool message has no resolvable call id. -/
def missingToolCallIdError : ClientPayloadError :=
  payloadError "tool messages must include \x27tool_call_id\x27."

/-- Source `_normalize_tool_message`. -/
def _normalize_tool_message (message : JObj) : Except ClientPayloadError Json :=
  let resolved :=
    match nonEmptyStrOf (jget message "tool_call_id") with
    | some s => some s
    | none =>
        match nonEmptyStrOf (jget message "toolCallId") with
        | some s => some s
        | none => nonEmptyStrOf (jget message "call_id")
  match resolved with
  | some cid =>
      Except.ok (Json.obj
        [("type", Json.str "function_call_output"),
         ("call_id", Json.str cid),
         ("output", Json.str (_normalize_tool_output_value (jget message "content")))])
  | none => Except.error missingToolCallIdError

/-- Source `_normalize_tool_call_arguments`. -/
def _normalize_tool_call_arguments : Json → String
  | Json.null => "\x7b\x7d"
  | Json.str s => s
  | Json.obj fs => jsonDumps (Json.obj fs)
  | Json.arr xs => jsonDumps (Json.arr xs)
  | Json.bool b => if b then "True" else "False"
  | Json.num n => toString n

/-- Source `_normalize_assistant_tool_call`. -/
def _normalize_assistant_tool_call (tool_call : JObj) (index : Nat) :
    Except ClientPayloadError JObj :=
  match nonEmptyStrOf (jget tool_call "id") with
  | none =>
      Except.error (payloadError
        ("assistant tool_calls[" ++ toString index ++ "] must include a non-empty \x27id\x27."))
  | some call_id =>
      match jget tool_call "function" with
      | Json.obj fn =>
          match nonEmptyStrOf (jget fn "name") with
          | none =>
              Except.error (payloadError
                ("assistant tool_calls[" ++ toString index ++
                  "].function must include a non-empty \x27name\x27."))
          | some nm =>
              Except.ok
                [("type", Json.str "function_call"),
                 ("call_id", Json.str call_id),
                 ("name", Json.str nm),
                 ("arguments", Json.str (_normalize_tool_call_arguments (jget fn "arguments")))]
      | _ =>
          Except.error (payloadError
            ("assistant tool_calls[" ++ toString index ++ "] must include a \x27function\x27 object."))

/-- The `for index, tool_call in enumerate(tool_calls)` loop of
`_normalize_assistant_message_items`. -/
def normAssistantToolCalls (tool_calls : List Json) (index : Nat) :
    Except ClientPayloadError (List Json) :=
  match tool_calls with
  | [] => Except.ok []
  | tc :: rest =>
      match tc with
      | Json.obj fs =>
          match _normalize_assistant_tool_call fs index with
          | Except.error e => Except.error e
          | Except.ok item =>
              match normAssistantToolCalls rest (index + 1) with
              | Except.error e => Except.error e
              | Except.ok items => Except.ok (Json.obj item :: items)
      | _ =>
          Except.error (payloadError
            ("assistant tool_calls[" ++ toString index ++ "] must be an object."))

/-- Source `_normalize_assistant_message_items`. -/
def _normalize_assistant_message_items (message : JObj) :
    Except ClientPayloadError (List Json) :=
  let normalized_message := _normalize_message_content message
  let base :=
    if _has_non_empty_content (jget normalized_message "content") then
      [Json.obj normalized_message]
    else []
  match jget message "tool_calls" with
  | Json.arr tool_calls =>
      match normAssistantToolCalls tool_calls 0 with
      | Except.error e => Except.error e
      | Except.ok items => Except.ok (base ++ items)
  | _ => Except.ok base

/-- One iteration of the role-router loop of `coerce_messages`: the
instruction texts and input items the message contributes. -/
def processMessage (message : Json) : Except ClientPayloadError (List String × List Json) :=
  match message with
  | Json.obj fields =>
      match jget fields "role" with
      | Json.str role =>
          if !supportedRole role then
            Except.error (payloadError ("Unsupported message role: " ++ role))
          else if role == "system" || role == "developer" then
            match _ensure_text_only_content (jget fields "content") role with
            | Except.error e => Except.error e
            | Except.ok _ =>
                match _content_to_text (jget fields "content") with
                | some t => if t != "" then Except.ok ([t], []) else Except.ok ([], [])
                | none => Except.ok ([], [])
          else if role == "tool" then
            match _normalize_tool_message fields with
            | Except.error e => Except.error e
            | Except.ok item => Except.ok ([], [item])
          else if role == "assistant" then
            match _normalize_assistant_message_items fields with
            | Except.error e => Except.error e
            | Except.ok items => Except.ok ([], items)
          else Except.ok ([], [Json.obj (_normalize_message_content fields)])
      | _ => Except.error (payloadError "Each message must include a string \x27role\x27.")
  | _ => Except.error (payloadError "Each message must be an object.")

/-- The accumulator loop of `coerce_messages`. -/
def coerceLoop (msgs : List Json) (instruction_parts : List String)
    (input_messages : List Json) : Except ClientPayloadError (List String × List Json) :=
  match msgs with
  | [] => Except.ok (instruction_parts, input_messages)
  | m :: rest =>
      match processMessage m with
      | Except.error e => Except.error e
      | Except.ok (ps, items) =>
          coerceLoop rest (instruction_parts ++ ps) (input_messages ++ items)

/-- Source `coerce_messages`. -/
def coerce_messages (existing_instructions : String) (messages : List Json) :
    Except ClientPayloadError (String × List Json) :=
  match coerceLoop messages [] [] with
  | Except.error e => Except.error e
  | Except.ok (instruction_parts, input_messages) =>
      Except.ok (_merge_instructions existing_instructions instruction_parts, input_messages)

/-- Modelled from the spec: "first non-empty string wins" over a list of
candidate values. -/
def firstNonEmptyString : List Json → Option String
  | [] => none
  | v :: rest =>
      match nonEmptyStrOf v with
      | some s => some s
      | none => firstNonEmptyString rest

/-- Modelled from the spec: "resolve call id by checking, in order,
`tool_call_id`, `toolCallId`, `call_id` — first non-empty string wins". -/
def resolveToolCallIdSpec (message : JObj) : Option String :=
  firstNonEmptyString
    [jget message "tool_call_id", jget message "toolCallId", jget message "call_id"]

/-- Modelled from the spec: the text one message contributes to the
instruction accumulator — system/developer messages only, non-empty extracted
text only. -/
def specInstructionTextOf (m : Json) : Option String :=
  match m with
  | Json.obj fs =>
      match jget fs "role" with
      | Json.str r =>
          if r == "system" || r == "developer" then
            match _content_to_text (jget fs "content") with
            | some t => if t != "" then some t else none
            | none => none
          else none
      | _ => none
  | _ => none

/-- Modelled from the spec: "all non-empty texts extracted from
system/developer messages in input order". -/
def specInstructionTexts (msgs : List Json) : List String :=
  msgs.filterMap specInstructionTextOf

/-- Modelled from the spec: newline-join the extracted texts; if non-empty,
append to the existing instructions with a newline separator when those are
non-empty, else adopt directly; otherwise keep the existing instructions. -/
def specMergedInstructions (existing : String) (msgs : List Json) : String :=
  let newText := String.intercalate "\n" (specInstructionTexts msgs)
  if newText = "" then existing
  else if existing = "" then newText
  else existing ++ "\n" ++ newText

/-- Modelled from the spec (amended): one allowed element of text-only
content — a string, or an object whose `type` is absent, null or "text",
with a string `text` field. -/
def textOnlyElemAllowed : Json → Bool
  | Json.str _ => true
  | Json.obj fs =>
      isNoneOrTextTag (jget fs "type") &&
        (match jget fs "text" with
         | Json.str _ => true
         | _ => false)
  | _ => false

/-- Modelled from the spec (amended): content shapes accepted by the
text-only validation — null, a string, an array of allowed elements, or a
single object that is itself an allowed element. -/
def textOnlyAllowed : Json → Bool
  | Json.null => true
  | Json.str _ => true
  | Json.arr parts => parts.all textOnlyElemAllowed
  | Json.obj fs => textOnlyElemAllowed (Json.obj fs)
  | _ => false

/-- One allowed element exactly as the claim words it: `type` must be absent
or the string "text" — an explicit null `type` is NOT in the allowed set. -/
def textOnlyElemAllowedStrict : Json → Bool
  | Json.str _ => true
  | Json.obj fs =>
      (!hasKey fs "type" || jsonIsStr (jget fs "type") "text") &&
        (match jget fs "text" with
         | Json.str _ => true
         | _ => false)
  | _ => false

/-- The allowed-content set exactly as the claim words it. -/
def textOnlyAllowedStrict : Json → Bool
  | Json.null => true
  | Json.str _ => true
  | Json.arr parts => parts.all textOnlyElemAllowedStrict
  | Json.obj fs => textOnlyElemAllowedStrict (Json.obj fs)
  | _ => false

/-- A content part carrying one of the three canonical output tags. -/
def isCanonicalPart : Json → Bool
  | Json.obj fs =>
      jsonIsStr (jget fs "type") "input_text" ||
        jsonIsStr (jget fs "type") "input_image" ||
        jsonIsStr (jget fs "type") "input_file"
  | _ => false

/-- The element list of an array value (empty for non-arrays). -/
def jarrElems : Json → List Json
  | Json.arr xs => xs
  | _ => []

/-- The assistant message of the malformed-tool-call scenario:
`tool_calls=[(id:"", function:(name:"f"))]`. -/
def badToolCallAssistant : Json :=
  Json.obj [("role", Json.str "assistant"),
    ("tool_calls", Json.arr [Json.obj [("id", Json.str ""),
      ("function", Json.obj [("name", Json.str "f")])]])]

theorem hasKey_of_jget_ne_null (fs : JObj) (k : String) (h : jget fs k ≠ Json.null) :
    hasKey fs k = true := by
  induction fs with
  | nil => exact absurd rfl h
  | cons kv rest ih =>
      obtain ⟨k1, v1⟩ := kv
      by_cases hk : k1 = k
      · simp [hasKey, hk]
      · simp only [jget, hk, if_false] at h
        simp only [hasKey, hk, if_false]
        exact ih h

theorem jget_setKey (fs : JObj) (k : String) (v : Json) :
    jget (setKey fs k v) k = v := by
  induction fs with
  | nil => simp [setKey, jget]
  | cons kv rest ih =>
      obtain ⟨k1, v1⟩ := kv
      by_cases hk : k1 = k
      · simp [setKey, hk, jget]
      · simp [setKey, hk, jget, ih]

theorem coerceLoop_append (xs ys : List Json) (ip : List String) (it : List Json) :
    coerceLoop (xs ++ ys) ip it =
      (match coerceLoop xs ip it with
       | Except.ok acc => coerceLoop ys acc.1 acc.2
       | Except.error e => Except.error e) := by
  induction xs generalizing ip it with
  | nil => simp [coerceLoop]
  | cons m rest ih =>
      simp only [List.cons_append, coerceLoop]
      cases hm : processMessage m with
      | error e => rfl
      | ok pr =>
          obtain ⟨ps, items⟩ := pr
          exact ih (ip ++ ps) (it ++ items)

/-- C1: the end-to-end scenario — system text goes to instructions, the user
message content collapses to one input_text part, the null-content assistant
message contributes only its function_call item, and the tool message becomes
one function_call_output item, in input order. -/
theorem C1_scenario :
    coerce_messages ""
      [Json.obj [("role", Json.str "system"), ("content", Json.str "Be terse.")],
       Json.obj [("role", Json.str "user"), ("content", Json.str "Hi")],
       Json.obj [("role", Json.str "assistant"), ("content", Json.null),
         ("tool_calls", Json.arr [Json.obj [("id", Json.str "c1"),
           ("function", Json.obj [("name", Json.str "lookup"),
             ("arguments", Json.obj [("q", Json.str "x")])])]])],
       Json.obj [("role", Json.str "tool"), ("tool_call_id", Json.str "c1"),
         ("content", Json.str "42")]] =
    Except.ok ("Be terse.",
      [Json.obj [("role", Json.str "user"),
         ("content", Json.arr [Json.obj [("type", Json.str "input_text"),
           ("text", Json.str "Hi")]])],
       Json.obj [("type", Json.str "function_call"), ("call_id", Json.str "c1"),
         ("name", Json.str "lookup"), ("arguments", Json.str "\x7b\"q\":\"x\"\x7d")],
       Json.obj [("type", Json.str "function_call_output"), ("call_id", Json.str "c1"),
         ("output", Json.str "42")]]) := rfl

/-- C3: the tool-message call id is the first non-empty string among
`tool_call_id`, `toolCallId`, `call_id`, with the two precedence examples of
the spec, and a tool message resolving none of the three makes the whole
coercion fail with the missing-tool-call-id error. -/
theorem C3_tool_call_id_precedence :
    (∀ m : JObj, _normalize_tool_message m =
      (match resolveToolCallIdSpec m with
       | some cid =>
           Except.ok (Json.obj
             [("type", Json.str "function_call_output"),
              ("call_id", Json.str cid),
              ("output", Json.str (_normalize_tool_output_value (jget m "content")))])
       | none => Except.error missingToolCallIdError))
    ∧ _normalize_tool_message
        [("role", Json.str "tool"), ("tool_call_id", Json.str "A"),
         ("toolCallId", Json.str "B"), ("call_id", Json.str "C")] =
        Except.ok (Json.obj [("type", Json.str "function_call_output"),
          ("call_id", Json.str "A"), ("output", Json.str "")])
    ∧ _normalize_tool_message
        [("role", Json.str "tool"), ("toolCallId", Json.str "B"),
         ("call_id", Json.str "C")] =
        Except.ok (Json.obj [("type", Json.str "function_call_output"),
          ("call_id", Json.str "B"), ("output", Json.str "")])
    ∧ coerce_messages "" [Json.obj [("role", Json.str "tool")]] =
        Except.error missingToolCallIdError := by
  refine ⟨?_, rfl, rfl, rfl⟩
  intro m
  cases h1 : nonEmptyStrOf (jget m "tool_call_id") <;>
    cases h2 : nonEmptyStrOf (jget m "toolCallId") <;>
      cases h3 : nonEmptyStrOf (jget m "call_id") <;>
        simp [_normalize_tool_message, resolveToolCallIdSpec, firstNonEmptyString,
          h1, h2, h3]

/-- C4: a well-formed assistant tool call is emitted with arguments
normalized by case — null becomes the two-character empty-object string, a
string passes through verbatim, objects and arrays are encoded compactly
(witnessed by the spaceless encoding of the one-key example), and other
scalars take their Python string form. -/
theorem C4_arguments_normalization (tool_call fn : JObj) (index : Nat) (cid nm : String)
    (hid : jget tool_call "id" = Json.str cid) (hcid : cid ≠ "")
    (hfn : jget tool_call "function" = Json.obj fn)
    (hnm : jget fn "name" = Json.str nm) (hnme : nm ≠ "") :
    _normalize_assistant_tool_call tool_call index =
      Except.ok
        [("type", Json.str "function_call"),
         ("call_id", Json.str cid),
         ("name", Json.str nm),
         ("arguments", Json.str (_normalize_tool_call_arguments (jget fn "arguments")))]
    ∧ _normalize_tool_call_arguments Json.null = "\x7b\x7d"
    ∧ (∀ s, _normalize_tool_call_arguments (Json.str s) = s)
    ∧ (∀ fs, _normalize_tool_call_arguments (Json.obj fs) = jsonDumps (Json.obj fs))
    ∧ (∀ xs, _normalize_tool_call_arguments (Json.arr xs) = jsonDumps (Json.arr xs))
    ∧ (∀ b, _normalize_tool_call_arguments (Json.bool b) = if b then "True" else "False")
    ∧ (∀ n : Int, _normalize_tool_call_arguments (Json.num n) = toString n)
    ∧ _normalize_tool_call_arguments (Json.obj [("x", Json.num 1)]) = "\x7b\"x\":1\x7d" := by
  refine ⟨?_, rfl, fun s => rfl, fun fs => rfl, fun xs => rfl, fun b => rfl, fun n => rfl, rfl⟩
  unfold _normalize_assistant_tool_call
  rw [hid, hfn]
  simp [nonEmptyStrOf, hcid, hnm, hnme]

theorem C4_arguments_normalization_witness :
    _normalize_assistant_tool_call
      [("id", Json.str "c1"), ("function", Json.obj [("name", Json.str "f")])] 0 =
      Except.ok
        [("type", Json.str "function_call"),
         ("call_id", Json.str "c1"),
         ("name", Json.str "f"),
         ("arguments", Json.str "\x7b\x7d")] :=
  (C4_arguments_normalization
    [("id", Json.str "c1"), ("function", Json.obj [("name", Json.str "f")])]
    [("name", Json.str "f")] 0 "c1" "f" rfl (by decide) rfl rfl (by decide)).1

/-- C9: a content part whose `type` field is present but falsy (empty string,
false, …) and which carries a string `text` field is classified as a text
part and rewritten to the canonical input_text shape. -/
theorem C9_falsy_type_defaults_to_text (fs : JObj) (t : String)
    (_hty : hasKey fs "type" = true)
    (hfalsy : truthyJ (jget fs "type") = false)
    (htext : jget fs "text" = Json.str t) :
    _normalize_content_part fs = [("type", Json.str "input_text"), ("text", Json.str t)] := by
  have hk : hasKey fs "text" = true :=
    hasKey_of_jget_ne_null fs "text" (by simp [htext])
  simp [_normalize_content_part, partTypeOf, hfalsy, hk, htext, jsonIsStr]

theorem C9_falsy_type_defaults_to_text_witness :
    _normalize_content_part [("type", Json.str ""), ("text", Json.str "hi")] =
      [("type", Json.str "input_text"), ("text", Json.str "hi")] :=
  C9_falsy_type_defaults_to_text
    [("type", Json.str ""), ("text", Json.str "hi")] "hi" rfl rfl rfl

/-- C10: in the assistant non-empty-content check, an array element that is a
non-empty object whose `text` key holds null (absent and explicit null are
indistinguishable to the `.get`-based check) is judged non-empty, so an
assistant message with content `[(text: null)]` emits a message item. -/
theorem C10_text_null_counts_non_empty :
    (∀ (fs : JObj) (xs : List Json), fs ≠ [] → jget fs "text" = Json.null →
        Json.obj fs ∈ xs → _has_non_empty_content (Json.arr xs) = true)
    ∧ _normalize_assistant_message_items
        [("role", Json.str "assistant"),
         ("content", Json.arr [Json.obj [("text", Json.null)]])] =
      Except.ok [Json.obj [("role", Json.str "assistant"),
        ("content", Json.arr [Json.obj [("text", Json.null)]])]] := by
  constructor
  · intro fs xs hne htext hmem
    show _has_non_empty_list xs = true
    induction xs with
    | nil => cases hmem
    | cons y ys ih =>
        rcases List.mem_cons.mp hmem with h | h
        · subst h
          cases fs with
          | nil => exact absurd rfl hne
          | cons kv rest => simp [_has_non_empty_list, htext, truthyJ]
        · have hys := ih h
          cases y <;> simp [_has_non_empty_list, hys]
  · rfl

theorem C10_text_null_counts_non_empty_witness :
    _has_non_empty_content (Json.arr [Json.obj [("text", Json.null)]]) = true :=
  C10_text_null_counts_non_empty.1 [("text", Json.null)]
    [Json.obj [("text", Json.null)]] (List.cons_ne_nil _ _) rfl
    (List.mem_singleton.mpr rfl)

theorem ite_cond_true {α : Sort _} (c : Bool) (a b : α) (h : c = true) :
    (if c = true then a else b) = a := by
  rw [h]; rfl

theorem ite_cond_false {α : Sort _} (c : Bool) (a b : α) (h : c = false) :
    (if c = true then a else b) = b := by
  rw [h]; rfl

theorem textOnlyList_iff (parts : List Json) (role : String) :
    (_ensure_text_only_list parts role = Except.ok () ↔
      parts.all textOnlyElemAllowed = true) := by
  induction parts with
  | nil => simp [_ensure_text_only_list]
  | cons p rest ih =>
      cases p with
      | str s => simp [_ensure_text_only_list, textOnlyElemAllowed, ih]
      | obj fs =>
          rcases Bool.eq_false_or_eq_true (isNoneOrTextTag (jget fs "type")) with hty | hty
          · cases htext : jget fs "text" <;>
              simp [_ensure_text_only_list, textOnlyElemAllowed, hty, htext, ih]
          · simp [_ensure_text_only_list, textOnlyElemAllowed, hty]
      | null => simp [_ensure_text_only_list, textOnlyElemAllowed]
      | bool b => simp [_ensure_text_only_list, textOnlyElemAllowed]
      | num n => simp [_ensure_text_only_list, textOnlyElemAllowed]
      | arr xs => simp [_ensure_text_only_list, textOnlyElemAllowed]

/-- C5 (amended): the text-only validation of system/developer content
accepts exactly null, plain strings, arrays whose elements are strings or
objects with `type` absent/null/"text" and a string `text`, and single
objects under the same rule; the image part fails, plain "hello" merges. -/
theorem C5_text_only_validation :
    (∀ (content : Json) (role : String),
        (_ensure_text_only_content content role = Except.ok () ↔
          textOnlyAllowed content = true))
    ∧ coerce_messages ""
        [Json.obj [("role", Json.str "system"),
          ("content", Json.arr [Json.obj [("type", Json.str "image_url"),
            ("image_url", Json.str "http://x")]])]] =
        Except.error (textOnlyError "system")
    ∧ coerce_messages ""
        [Json.obj [("role", Json.str "system"), ("content", Json.str "hello")]] =
        Except.ok ("hello", []) := by
  refine ⟨?_, rfl, rfl⟩
  intro content role
  cases content with
  | null => simp [_ensure_text_only_content, textOnlyAllowed]
  | str s => simp [_ensure_text_only_content, textOnlyAllowed]
  | bool b => simp [_ensure_text_only_content, textOnlyAllowed]
  | num n => simp [_ensure_text_only_content, textOnlyAllowed]
  | arr parts =>
      simpa [_ensure_text_only_content, textOnlyAllowed] using textOnlyList_iff parts role
  | obj fs =>
      rcases Bool.eq_false_or_eq_true (isNoneOrTextTag (jget fs "type")) with hty | hty
      · cases htext : jget fs "text" <;>
          simp [_ensure_text_only_content, textOnlyAllowed, textOnlyElemAllowed, hty, htext]
      · simp [_ensure_text_only_content, textOnlyAllowed, textOnlyElemAllowed, hty]

/-- C5 counterexample: an array element with an explicit null `type` and a
string `text` is outside the allowed set exactly as the claim words it
(`type` absent-or-"text"), yet the coercion accepts it and merges the text,
so the "exactly when" of the claim is false as stated. -/
theorem C5_text_only_validation_counterexample :
    textOnlyAllowedStrict
        (Json.arr [Json.obj [("type", Json.null), ("text", Json.str "hi")]]) = false
    ∧ coerce_messages ""
        [Json.obj [("role", Json.str "system"),
          ("content", Json.arr [Json.obj [("type", Json.null), ("text", Json.str "hi")]])]] =
        Except.ok ("hi", []) :=
  ⟨rfl, rfl⟩

theorem C5_text_only_validation_witness :
    _ensure_text_only_content (Json.str "ok") "system" = Except.ok () :=
  (C5_text_only_validation.1 (Json.str "ok") "system").mpr rfl

theorem processMessage_instruction_parts (m : Json) (ps : List String) (items : List Json)
    (h : processMessage m = Except.ok (ps, items)) :
    ps = (match specInstructionTextOf m with
          | some t => [t]
          | none => []) := by
  cases m with
  | obj fields =>
      simp only [processMessage] at h
      repeat' split at h
      all_goals cases h
      all_goals simp_all [specInstructionTextOf]
  | null => cases h
  | bool b => cases h
  | num n => cases h
  | str s => cases h
  | arr xs => cases h

theorem coerceLoop_instruction_parts (msgs : List Json) (ip : List String)
    (it : List Json) (acc : List String × List Json)
    (h : coerceLoop msgs ip it = Except.ok acc) :
    acc.1 = ip ++ specInstructionTexts msgs := by
  induction msgs generalizing ip it with
  | nil =>
      unfold coerceLoop at h
      cases h
      simp [specInstructionTexts]
  | cons m rest ih =>
      unfold coerceLoop at h
      cases hm : processMessage m with
      | error e => rw [hm] at h; cases h
      | ok pr =>
          obtain ⟨ps, items⟩ := pr
          rw [hm] at h
          have hps := processMessage_instruction_parts m ps items hm
          have hrec := ih (ip ++ ps) (it ++ items) h
          rw [hrec, hps]
          simp only [specInstructionTexts, List.filterMap_cons]
          cases hf : specInstructionTextOf m <;> simp [List.append_assoc]

theorem specInstructionTextOf_ne_empty (m : Json) (t : String)
    (hf : specInstructionTextOf m = some t) : t ≠ "" := by
  unfold specInstructionTextOf at hf
  repeat' split at hf
  all_goals simp_all [bne_iff_ne]

theorem merge_eq_spec (existing : String) (parts : List String)
    (hne : ∀ p ∈ parts, p ≠ "") :
    _merge_instructions existing parts =
      (if String.intercalate "\n" parts = "" then existing
       else if existing = "" then String.intercalate "\n" parts
       else existing ++ "\n" ++ String.intercalate "\n" parts) := by
  have hfilter : parts.filter (fun p => p != "") = parts :=
    List.filter_eq_self.mpr (by intro a ha; simpa [bne_iff_ne] using hne a ha)
  unfold _merge_instructions
  cases parts with
  | nil =>
      have hI : String.intercalate "\n" ([] : List String) = "" := rfl
      simp [hI]
  | cons p rest =>
      rw [hfilter]
      by_cases h1 : String.intercalate "\n" (p :: rest) = "" <;>
        by_cases h2 : existing = "" <;>
          simp [h1, h2, List.isEmpty_cons, bne_iff_ne, beq_iff_eq]

/-- C7: on success, the merged instruction string equals the newline-join of
all non-empty texts extracted from system/developer messages in input order,
appended to the pre-existing instructions with a newline separator when both
sides are non-empty, with the existing instructions passing through unchanged
when no new text was extracted. -/
theorem C7_instruction_merge (ins : String) (msgs : List Json)
    (res : String × List Json) (h : coerce_messages ins msgs = Except.ok res) :
    res.1 = specMergedInstructions ins msgs := by
  unfold coerce_messages at h
  cases hl : coerceLoop msgs [] [] with
  | error e => rw [hl] at h; cases h
  | ok acc =>
      rw [hl] at h
      obtain ⟨ip, items⟩ := acc
      cases h
      show _merge_instructions ins ip = specMergedInstructions ins msgs
      have hip : ip = specInstructionTexts msgs := by
        simpa using coerceLoop_instruction_parts msgs [] [] (ip, items) hl
      subst hip
      rw [merge_eq_spec]
      · rfl
      · intro p hp
        rw [specInstructionTexts, List.mem_filterMap] at hp
        obtain ⟨m, _, hf⟩ := hp
        exact specInstructionTextOf_ne_empty m p hf

theorem C7_instruction_merge_witness :
    "hello" = specMergedInstructions ""
      [Json.obj [("role", Json.str "system"), ("content", Json.str "hello")]] :=
  C7_instruction_merge ""
    [Json.obj [("role", Json.str "system"), ("content", Json.str "hello")]]
    ("hello", []) rfl

/-- C6: an assistant message whose tool_calls entry has an empty id makes the
whole coercion fail — any message list containing it yields an error and no
(instructions, items) pair, and when the messages before it process cleanly
the error is precisely the missing-tool-call-id error for index 0. -/
theorem C6_malformed_tool_call_fails_whole_call :
    (∀ (ins : String) (msgs : List Json), badToolCallAssistant ∈ msgs →
        ∃ e, coerce_messages ins msgs = Except.error e)
    ∧ (∀ (ins : String) (pre post : List Json) (acc : List String × List Json),
        coerceLoop pre [] [] = Except.ok acc →
        coerce_messages ins (pre ++ badToolCallAssistant :: post) =
          Except.error (payloadError
            "assistant tool_calls[0] must include a non-empty \x27id\x27.")) := by
  have hbadmsg : processMessage badToolCallAssistant =
      Except.error (payloadError
        "assistant tool_calls[0] must include a non-empty \x27id\x27.") := rfl
  have hbad : ∀ (ip : List String) (it : List Json) (rest : List Json),
      coerceLoop (badToolCallAssistant :: rest) ip it =
        Except.error (payloadError
          "assistant tool_calls[0] must include a non-empty \x27id\x27.") := by
    intro ip it rest
    unfold coerceLoop
    rw [hbadmsg]
  constructor
  · intro ins msgs hmem
    obtain ⟨pre, post, hsplit⟩ := List.append_of_mem hmem
    subst hsplit
    unfold coerce_messages
    rw [coerceLoop_append]
    cases hl : coerceLoop pre [] [] with
    | error e => exact ⟨e, rfl⟩
    | ok acc =>
        exact ⟨payloadError "assistant tool_calls[0] must include a non-empty \x27id\x27.",
          by simp [hbad]⟩
  · intro ins pre post acc hpre
    unfold coerce_messages
    rw [coerceLoop_append, hpre]
    simp [hbad]

theorem C6_malformed_tool_call_fails_whole_call_witness :
    coerce_messages "" [badToolCallAssistant] =
      Except.error (payloadError
        "assistant tool_calls[0] must include a non-empty \x27id\x27.") :=
  C6_malformed_tool_call_fails_whole_call.2 "" [] [] ([], []) rfl

theorem file_part_shape (v : Json) :
    (∃ i, _file_part_to_input_file v = [("type", Json.str "input_file"), ("file_id", Json.str i)])
    ∨ (∃ u, _file_part_to_input_file v = [("type", Json.str "input_file"), ("file_url", Json.str u)])
    ∨ _file_part_to_input_file v = [("type", Json.str "input_file")] := by
  unfold _file_part_to_input_file
  repeat' split
  all_goals
    first
      | exact Or.inl ⟨_, rfl⟩
      | exact Or.inr (Or.inl ⟨_, rfl⟩)
      | exact Or.inr (Or.inr rfl)

theorem ncp_fix_input_text (t : String) :
    _normalize_content_part [("type", Json.str "input_text"), ("text", Json.str t)] =
      [("type", Json.str "input_text"), ("text", Json.str t)] := rfl

theorem ncp_fix_input_image (u : String) :
    _normalize_content_part [("type", Json.str "input_image"), ("image_url", Json.str u)] =
      [("type", Json.str "input_image"), ("image_url", Json.str u)] := rfl

theorem ncp_fix_input_image_detail (u d : String) :
    _normalize_content_part
        [("type", Json.str "input_image"), ("image_url", Json.str u), ("detail", Json.str d)] =
      [("type", Json.str "input_image"), ("image_url", Json.str u), ("detail", Json.str d)] := rfl

theorem ncp_fix_input_file_url (u : String) :
    _normalize_content_part [("type", Json.str "input_file"), ("file_url", Json.str u)] =
      [("type", Json.str "input_file"), ("file_url", Json.str u)] := rfl

theorem ncp_fix_input_file_id (i : String) :
    _normalize_content_part [("type", Json.str "input_file"), ("file_id", Json.str i)] =
      [("type", Json.str "input_file"), ("file_id", Json.str i)] := rfl

theorem ncp_fix_input_file_bare :
    _normalize_content_part [("type", Json.str "input_file")] =
      [("type", Json.str "input_file")] := rfl

theorem ncp_shape (fs : JObj) :
    _normalize_content_part fs = fs
    ∨ (∃ t, _normalize_content_part fs = [("type", Json.str "input_text"), ("text", Json.str t)])
    ∨ (∃ u, _normalize_content_part fs =
        [("type", Json.str "input_image"), ("image_url", Json.str u)])
    ∨ (∃ u d, _normalize_content_part fs =
        [("type", Json.str "input_image"), ("image_url", Json.str u), ("detail", Json.str d)])
    ∨ (∃ u, _normalize_content_part fs =
        [("type", Json.str "input_file"), ("file_url", Json.str u)])
    ∨ (∃ i, _normalize_content_part fs =
        [("type", Json.str "input_file"), ("file_id", Json.str i)])
    ∨ _normalize_content_part fs = [("type", Json.str "input_file")] := by
  simp only [_normalize_content_part]
  repeat' split
  all_goals
    first
      | exact Or.inl rfl
      | exact Or.inr (Or.inl ⟨_, rfl⟩)
      | exact Or.inr (Or.inr (Or.inl ⟨_, rfl⟩))
      | exact Or.inr (Or.inr (Or.inr (Or.inl ⟨_, _, rfl⟩)))
      | exact Or.inr (Or.inr (Or.inr (Or.inr (Or.inl ⟨_, rfl⟩))))
      | (rcases file_part_shape (jget fs "file") with ⟨i, hfid⟩ | ⟨u, hu⟩ | hb
         · exact Or.inr (Or.inr (Or.inr (Or.inr (Or.inr (Or.inl ⟨i, hfid⟩)))))
         · exact Or.inr (Or.inr (Or.inr (Or.inr (Or.inl ⟨u, hu⟩))))
         · exact Or.inr (Or.inr (Or.inr (Or.inr (Or.inr (Or.inr hb))))))

theorem ncp_idem (fs : JObj) :
    _normalize_content_part (_normalize_content_part fs) = _normalize_content_part fs := by
  rcases ncp_shape fs with h | ⟨t, h⟩ | ⟨u, h⟩ | ⟨u, d, h⟩ | ⟨u, h⟩ | ⟨i, h⟩ | h
  · rw [h]; exact h
  · rw [h]; exact ncp_fix_input_text t
  · rw [h]; exact ncp_fix_input_image u
  · rw [h]; exact ncp_fix_input_image_detail u d
  · rw [h]; exact ncp_fix_input_file_url u
  · rw [h]; exact ncp_fix_input_file_id i
  · rw [h]; exact ncp_fix_input_file_bare

theorem normContentElem_idem (p : Json) :
    normContentElem (normContentElem p) = normContentElem p := by
  cases p with
  | str s => simp [normContentElem, ncp_fix_input_text]
  | obj fs => simp [normContentElem, ncp_idem]
  | null => rfl
  | bool b => rfl
  | num n => rfl
  | arr xs => rfl

/-- C8: the content-part normalizer is idempotent — applying it to its own
output is a no-op, because already-canonical parts pass through unchanged. -/
theorem C8_normalizer_idempotent (c : Json) :
    _normalize_content_parts (_normalize_content_parts c) = _normalize_content_parts c := by
  cases c with
  | null => rfl
  | str s => simp [_normalize_content_parts, normContentElem, ncp_fix_input_text]
  | bool b => rfl
  | num n => rfl
  | obj fs => simp [_normalize_content_parts, normContentElem, ncp_idem]
  | arr xs =>
      show Json.arr ((xs.map normContentElem).map normContentElem) =
        Json.arr (xs.map normContentElem)
      congr 1
      induction xs with
      | nil => rfl
      | cons y ys ih => simp [normContentElem_idem y, ih]

/-- C2 (amended): every element of a normalized content array is either
tagged with a canonical tag or is the corresponding input part passed through
unchanged; a bare string collapses to exactly one input_text part; and an
emitted message carries exactly the normalizer output as its content. -/
theorem C2_canonical_parts :
    (∀ (xs : List Json) (p : Json), p ∈ jarrElems (_normalize_content_parts (Json.arr xs)) →
        isCanonicalPart p = true ∨ p ∈ xs)
    ∧ (∀ s, _normalize_content_parts (Json.str s) =
        Json.arr [Json.obj [("type", Json.str "input_text"), ("text", Json.str s)]])
    ∧ (∀ m : JObj, jget (_normalize_message_content m) "content" =
        _normalize_content_parts (jget m "content")) := by
  refine ⟨?_, fun s => rfl, ?_⟩
  · intro xs p hp
    have hp' : p ∈ xs.map normContentElem := hp
    obtain ⟨x, hx, hxp⟩ := List.mem_map.mp hp'
    subst hxp
    cases x with
    | str s => exact Or.inl rfl
    | obj fs =>
        rcases ncp_shape fs with h | ⟨t, h⟩ | ⟨u, h⟩ | ⟨u, d, h⟩ | ⟨u, h⟩ | ⟨i, h⟩ | h <;>
          simp only [normContentElem, h]
        · exact Or.inr hx
        · exact Or.inl rfl
        · exact Or.inl rfl
        · exact Or.inl rfl
        · exact Or.inl rfl
        · exact Or.inl rfl
        · exact Or.inl rfl
    | null => exact Or.inr hx
    | bool b => exact Or.inr hx
    | num n => exact Or.inr hx
    | arr ys => exact Or.inr hx
  · intro m
    cases hc : jget m "content" <;>
      simp [_normalize_message_content, hc, jget_setKey, _normalize_content_parts]

/-- C2 counterexample: a user message whose content array holds a part with
the unrecognized tag "weird" is coerced successfully and the part is emitted
unchanged, so an emitted user-message content array can contain a part that
carries none of the canonical tags — the claim as stated is false. -/
theorem C2_canonical_parts_counterexample :
    coerce_messages ""
      [Json.obj [("role", Json.str "user"),
        ("content", Json.arr [Json.obj [("type", Json.str "weird"), ("x", Json.num 1)]])]] =
      Except.ok ("",
        [Json.obj [("role", Json.str "user"),
          ("content", Json.arr [Json.obj [("type", Json.str "weird"), ("x", Json.num 1)]])]])
    ∧ isCanonicalPart (Json.obj [("type", Json.str "weird"), ("x", Json.num 1)]) = false :=
  ⟨rfl, rfl⟩

theorem C2_canonical_parts_witness :
    isCanonicalPart (Json.obj [("type", Json.str "input_text"), ("text", Json.str "hi")]) = true
    ∨ Json.obj [("type", Json.str "input_text"), ("text", Json.str "hi")] ∈ [Json.str "hi"] :=
  C2_canonical_parts.1 [Json.str "hi"]
    (Json.obj [("type", Json.str "input_text"), ("text", Json.str "hi")])
    (List.mem_singleton.mpr rfl)

